import Mathlib

/-!
Shallow embedding of the JD-Agent tool servers.

The repository exposes two SQLite-backed MCP tool servers
(src/local_mcp_resume_agent/server.py and src/local_mcp_analyzer/server.py)
and one JD-analysis server (src/jd_agent_test/sub_agents/server.py).
SQLite values are modelled by `Value` (text, integer, NULL), a row is an
association list from column names to values, a table carries its schema
(column name, declared type, NOT NULL / UNIQUE / INTEGER-PRIMARY-KEY flags,
matching src/dbs/create_db.py) and its rows, and a database is an
association list from table names to tables.  The external Gemini
classification call is an oracle `Classifier : String → Except String String`
(an `Except.error` models a raised exception, the payload string models
`response.text`, with the empty string standing for an empty or missing
response).  Python exceptions are modelled with `Except`; logging is
modelled by a list of `Event`s so that the distinct log lines of the
workflow stay observable.
-/

namespace JDAgent

-- Decidable equality for `Except`, to evaluate concrete runs.
deriving instance DecidableEq for Except

/-- Python `str.startswith`, structurally recursive over the characters. -/
def pyStarts (s p : String) : Bool := p.data.isPrefixOf s.data

/-- A SQLite value: text, integer or NULL (Python `None`). -/
inductive Value
  | str (s : String)
  | int (n : Int)
  | null
deriving DecidableEq

/-- A row, as sqlite3.Row / a Python dict: column name to value, in order. -/
abbrev Row := List (String × Value)

/-- First-match association-list lookup, the model of Python `dict.get`. -/
def alookup {α : Type} : List (String × α) → String → Option α
  | [], _ => none
  | (k, v) :: rest, key => if k = key then some v else alookup rest key

/-- One column of a table schema, with the constraint flags that
src/dbs/create_db.py declares (`pk` marks INTEGER PRIMARY KEY, the rowid
alias). -/
structure Column where
  name : String
  colType : String
  notNull : Bool
  uniq : Bool
  pk : Bool
deriving DecidableEq

/-- A plain column with no constraints, as the analyzer's CREATE TABLE
statements produce them. -/
def col (n t : String) : Column := ⟨n, t, false, false, false⟩

/-- A table: its schema and its stored rows (each row is schema-shaped,
absent inserted columns stored as NULL, as SQLite does). -/
structure Table where
  schema : List Column
  rows : List Row
deriving DecidableEq

/-- The database: table name to table, the model of dbs/database.db. -/
abbrev DB := List (String × Table)

/-- The column names of a schema. -/
def colNames (s : List Column) : List String := s.map (·.name)

/-- Replace one table of the database, keeping every other table. -/
def replaceTable : DB → String → Table → DB
  | [], _, _ => []
  | (k, v) :: rest, n, t =>
    if k = n then (n, t) :: replaceTable rest n t
    else (k, v) :: replaceTable rest n t

/-- The row SQLite stores for an INSERT: one value per schema column, the
primary-key column holding the assigned rowid, a column the data does not
mention holding NULL. -/
def storedRow (schema : List Column) (data : Row) (pkn : Option String) (rid : Int) : Row :=
  schema.map (fun c =>
    (c.name, if pkn = some c.name then Value.int rid else (alookup data c.name).getD Value.null))

/-- The largest value stored in the rowid-alias column, 0 for no rows: the
next automatically assigned rowid is one more, as SQLite assigns it. -/
def maxRowId (pkn : String) : List Row → Int
  | [] => 0
  | r :: rest =>
    match alookup r pkn with
    | some (Value.int n) => max n (maxRowId pkn rest)
    | _ => maxRowId pkn rest

/-- Whether the new row violates a NOT NULL column. -/
def violatesNotNull (row : Row) (c : Column) : Bool :=
  c.notNull && decide (alookup row c.name = some Value.null)

/-- Whether the new row violates a UNIQUE column against the stored rows
(SQL UNIQUE ignores NULLs). -/
def violatesUnique (row : Row) (oldRows : List Row) (c : Column) : Bool :=
  c.uniq && !(decide (alookup row c.name = some Value.null))
    && oldRows.any (fun r => decide (alookup r c.name = alookup row c.name))

/-- The first constraint the new row violates, if any. -/
def checkConstraints (schema : List Column) (row : Row) (oldRows : List Row) : Option String :=
  match schema.find? (violatesNotNull row) with
  | some c => some ("NOT NULL constraint failed: " ++ c.name)
  | none =>
    match schema.find? (violatesUnique row oldRows) with
    | some c => some ("UNIQUE constraint failed: " ++ c.name)
    | none => none

/-- Append the schema-shaped row for `data` with rowid `rid`, after the
constraint checks. -/
def insertRow (tbl : Table) (data : Row) (pkn : Option String) (rid : Int) :
    Except String (Table × Int) :=
  match checkConstraints tbl.schema (storedRow tbl.schema data pkn rid) tbl.rows with
  | some e => Except.error e
  | none =>
    Except.ok ({ schema := tbl.schema,
                 rows := tbl.rows ++ [storedRow tbl.schema data pkn rid] }, rid)

/-- SQLite executing `INSERT INTO tbl (data-columns) VALUES (data-values)`:
every mentioned column must exist, an explicit integer for the rowid-alias
column must be fresh, an omitted rowid is assigned as max + 1, and the
NOT NULL / UNIQUE constraints are enforced.  Returns the table with the new
row and `cursor.lastrowid`. -/
def sqliteInsert (tbl : Table) (data : Row) : Except String (Table × Int) :=
  if data.isEmpty then Except.error "INSERT has no values" else
  match data.find? (fun kv => !decide (kv.1 ∈ colNames tbl.schema)) with
  | some kv => Except.error ("table has no column named " ++ kv.1)
  | none =>
    match tbl.schema.find? (fun c => c.pk) with
    | some pkc =>
      match alookup data pkc.name with
      | some (Value.int n) =>
        if tbl.rows.any (fun r => decide (alookup r pkc.name = some (Value.int n))) then
          Except.error ("UNIQUE constraint failed: " ++ pkc.name)
        else insertRow tbl data (some pkc.name) n
      | some _ => Except.error "datatype mismatch"
      | none => insertRow tbl data (some pkc.name) (maxRowId pkc.name tbl.rows + 1)
    | none => insertRow tbl data none (Int.ofNat tbl.rows.length + 1)

/-- A string literal of SQL wrapped in single quotes, as the servers build
their messages around names. -/
def sq (s : String) : String := "'" ++ s ++ "'"

/-- Python `str.strip()`: the string without leading and trailing
whitespace (structurally recursive over the characters, so that concrete
runs reduce inside the kernel). -/
def pyStrip (s : String) : String :=
  ⟨((s.data.dropWhile Char.isWhitespace).reverse.dropWhile Char.isWhitespace).reverse⟩

/-- Split a character list at every occurrence of the separator. -/
def splitChars (sep : Char) : List Char → List (List Char)
  | [] => [[]]
  | c :: rest =>
    let r := splitChars sep rest
    if c = sep then [] :: r
    else
      match r with
      | [] => [[c]]
      | h :: t => (c :: h) :: t

/-- Python `str.split(sep)` for a one-character separator, which is the
only shape the servers use (`"="`, `","` and the CSV line separator). -/
def splitOnChar (sep : Char) (s : String) : List String :=
  (splitChars sep s.data).map (fun l => ⟨l⟩)

/-- The numeric value of a non-empty all-digit character list. -/
def digitsVal (l : List Char) : Option Nat :=
  if l ≠ [] ∧ l.all (fun c => c.isDigit) then
    some (l.foldl (fun acc c => acc * 10 + (c.toNat - 48)) 0)
  else none

/-- An optionally signed decimal integer. -/
def parseIntChars : List Char → Option Int
  | '-' :: rest => (digitsVal rest).map (fun n => -(n : Int))
  | l => (digitsVal l).map (fun n => (n : Int))

/-- A SQL literal of the WHERE fragment the tools are called with: a quoted
text or an integer. -/
def parseLit (s : String) : Option Value :=
  let t := (pyStrip s).data
  if 2 ≤ t.length ∧ t.head? = some '\'' ∧ t.getLast? = some '\'' then
    some (Value.str ⟨(t.drop 1).dropLast⟩)
  else
    (parseIntChars t).map Value.int

/-- The exact-match WHERE fragment `column = literal` the tools are called
with; any other string is outside the modelled fragment and executes as a
SQL error. -/
def parseCond (s : String) : Option (String × Value) :=
  match splitOnChar '=' s with
  | [l, r] =>
    match parseLit r with
    | some v => some (pyStrip l, v)
    | none => none
  | _ => none

/-- The result of PRAGMA table_info: the table name and its (name, type)
column pairs. -/
structure SchemaResult where
  table_name : String
  columns : List (String × String)
deriving DecidableEq

/-- The (name, type) pairs of a schema, as PRAGMA table_info reports them. -/
def schemaPairs (tbl : Table) : List (String × String) :=
  tbl.schema.map (fun c => (c.name, c.colType))

namespace Resume

/-!
The Schema/Query/Mutation tool server, src/local_mcp_resume_agent/server.py.
Each operation returns the dict the Python function returns: `OpResult`
carries the keys the various dicts use, a key the dict does not have being
`none`.  Operations also return the database after the call (the source
commits on success and rolls the statement back on error, so an error
leaves the database unchanged).
-/

/-- The result dict of a mutation tool of the resume-agent server. -/
structure OpResult where
  success : Bool
  message : String
  row_id : Option Int
  rows_updated : Option Nat
  rows_inserted : Option Nat
deriving DecidableEq

/-- A result dict with only the success and message keys. -/
def mkRes (success : Bool) (message : String) : OpResult :=
  ⟨success, message, none, none, none⟩

/-- The resume-agent `get_table_schema`: PRAGMA table_info, raising
ValueError when the table is absent (no schema information). -/
def get_table_schema (db : DB) (table_name : String) : Except String SchemaResult :=
  match alookup db table_name with
  | none => Except.error ("Table " ++ sq table_name ++ " not found or no schema information.")
  | some tbl => Except.ok ⟨table_name, schemaPairs tbl⟩

/-- The resume-agent `query_db_table`: SELECT columns FROM table, with a
WHERE clause exactly when the condition string is non-empty.  A missing
table or column, or a condition outside the modelled exact-match fragment,
is a sqlite3.Error, which the source re-raises as ValueError. -/
def query_db_table (db : DB) (table_name columns condition : String) :
    Except String (List Row) :=
  match alookup db table_name with
  | none =>
    Except.error ("Error querying table " ++ sq table_name ++ ": no such table: " ++ table_name)
  | some tbl =>
    let base : Except String (List Row) :=
      if condition = "" then Except.ok tbl.rows
      else
        match parseCond condition with
        | none =>
          Except.error ("Error querying table " ++ sq table_name ++ ": malformed condition")
        | some (ccol, cv) =>
          if decide (ccol ∈ colNames tbl.schema) then
            Except.ok (tbl.rows.filter (fun r => decide (alookup r ccol = some cv)))
          else
            Except.error ("Error querying table " ++ sq table_name ++ ": no such column: " ++ ccol)
    match base with
    | Except.error e => Except.error e
    | Except.ok rows =>
      if pyStrip columns = "*" then Except.ok rows
      else
        let cols := (splitOnChar ',' columns).map pyStrip
        match cols.find? (fun c => !decide (c ∈ colNames tbl.schema)) with
        | some c =>
          Except.error ("Error querying table " ++ sq table_name ++ ": no such column: " ++ c)
        | none =>
          Except.ok (rows.map (fun r => cols.map (fun c => (c, (alookup r c).getD Value.null))))

/-- The resume-agent `insert_data`: reject an empty mapping, otherwise run
the INSERT, commit on success (reporting `cursor.lastrowid`) and roll back
on a sqlite3.Error. -/
def insert_data (db : DB) (table_name : String) (data : Row) : OpResult × DB :=
  if data.isEmpty then (mkRes false "No data provided for insertion.", db)
  else
    match alookup db table_name with
    | none =>
      (mkRes false ("Error inserting data into table " ++ sq table_name ++
        ": no such table: " ++ table_name), db)
    | some tbl =>
      match sqliteInsert tbl data with
      | Except.error e =>
        (mkRes false ("Error inserting data into table " ++ sq table_name ++ ": " ++ e), db)
      | Except.ok (tbl', rid) =>
        ({ mkRes true ("Data inserted successfully. Row ID: " ++ toString rid) with
            row_id := some rid },
         replaceTable db table_name tbl')

/-- The resume-agent `update_data`: reject an empty values mapping, then an
empty or whitespace-only condition (the safety measure), otherwise run the
UPDATE and report `cursor.rowcount`. -/
def update_data (db : DB) (table_name : String) (new_values : Row) (condition : String) :
    OpResult × DB :=
  if new_values.isEmpty then (mkRes false "No new values provided for update.", db)
  else if pyStrip condition = "" then
    (mkRes false ("Update condition cannot be empty. " ++
      "This is a safety measure to prevent accidental update of all rows."), db)
  else
    match alookup db table_name with
    | none =>
      (mkRes false ("Error updating data in table " ++ sq table_name ++
        ": no such table: " ++ table_name), db)
    | some tbl =>
      match parseCond condition with
      | none =>
        (mkRes false ("Error updating data in table " ++ sq table_name ++
          ": malformed condition"), db)
      | some (ccol, cv) =>
        if !decide (ccol ∈ colNames tbl.schema)
            || new_values.any (fun kv => !decide (kv.1 ∈ colNames tbl.schema)) then
          (mkRes false ("Error updating data in table " ++ sq table_name ++
            ": no such column"), db)
        else
          let hit := fun (r : Row) => decide (alookup r ccol = some cv)
          let rowsUpdated := (tbl.rows.filter hit).length
          let rows' := tbl.rows.map (fun r =>
            if hit r then
              r.map (fun kv =>
                match alookup new_values kv.1 with
                | some nv => (kv.1, nv)
                | none => kv)
            else r)
          ({ mkRes true (toString rowsUpdated ++ " row(s) updated successfully in table " ++
              sq table_name ++ ".") with rows_updated := some rowsUpdated },
           replaceTable db table_name ⟨tbl.schema, rows'⟩)

/-- Insert the parsed CSV rows one by one on the shared cursor, stopping at
the first sqlite3.Error, as `cursor.executemany` does. -/
def insertMany (tbl : Table) : List Row → Except String Table
  | [] => Except.ok tbl
  | r :: rest =>
    match sqliteInsert tbl r with
    | Except.error e => Except.error e
    | Except.ok (tbl', _) => insertMany tbl' rest

/-- The non-empty physical lines of the CSV text; csv.DictReader skips the
blank lines, the first remaining line is the header. -/
def csvLines (csv_content : String) : List String :=
  (splitOnChar '\n' csv_content).filter (fun l => !decide (l = ""))

/-- The value csv.DictReader gives one row for one header column: the
matching field as text, or None when the row is short. -/
def csvCell (rowdata : List (String × String)) (c : String) : Value :=
  match alookup rowdata c with
  | some s => Value.str s
  | none => Value.null

/-- The resume-agent `insert_data_from_csv`: reject blank content, parse
header and rows, validate every header column against the destination
schema before any insert, then insert all rows as one batch, rolling back
whole on any error. -/
def insert_data_from_csv (db : DB) (table_name : String) (csv_content : String) :
    OpResult × DB :=
  if pyStrip csv_content = "" then
    (mkRes false "No CSV content provided for insertion.", db)
  else
    match csvLines csv_content with
    | [] =>
      ({ mkRes false "CSV data validation error: CSV file is empty or missing headers." with
          rows_inserted := some 0 }, db)
    | headerLine :: dataLines =>
      let csv_columns := splitOnChar ',' headerLine
      match get_table_schema db table_name with
      | Except.error e =>
        ({ mkRes false ("CSV data validation error: " ++ e) with rows_inserted := some 0 }, db)
      | Except.ok sch =>
        let db_column_names := sch.columns.map Prod.fst
        match csv_columns.find? (fun c => !decide (c ∈ db_column_names)) with
        | some badCol =>
          ({ mkRes false ("CSV data validation error: CSV column " ++ sq badCol ++
              " not found in table " ++ sq table_name ++
              ". Please ensure CSV headers match database column names.") with
              rows_inserted := some 0 }, db)
        | none =>
          match alookup db table_name with
          | none =>
            ({ mkRes false ("Database error during CSV insert: no such table: " ++ table_name)
                with rows_inserted := some 0 }, db)
          | some tbl =>
            let rowsData := dataLines.map (fun l => csv_columns.zip (splitOnChar ',' l))
            if rowsData.isEmpty then
              ({ mkRes true "CSV content parsed but no rows found to insert." with
                  rows_inserted := some 0 }, db)
            else
              match insertMany tbl (rowsData.map (fun rd =>
                  csv_columns.map (fun c => (c, csvCell rd c)))) with
              | Except.error e =>
                ({ mkRes false ("Database error during CSV insert: " ++ e) with
                    rows_inserted := some 0 }, db)
              | Except.ok tbl' =>
                ({ mkRes true ("Successfully inserted " ++ toString rowsData.length ++
                    " row(s) into table " ++ sq table_name ++ ".") with
                    rows_inserted := some rowsData.length },
                 replaceTable db table_name tbl')

end Resume

/-- The fixed seven-element category set shared by the analyzer and the
jd_agent_test server. -/
def CATEGORIES : List String :=
  ["Software Development", "IT Services", "Banking", "Insurance",
   "Healthcare", "Travel", "Real Estate"]

/-- The external Gemini classification call: an exception, or the response
text (the empty string modelling an empty or missing `response.text`). -/
def Classifier : Type := String → Except String String

namespace Analyzer

/-!
The Classification/Transfer tool server, src/local_mcp_analyzer/server.py.
Its logging is modelled as a list of `Event`s so that the distinct log
lines of `classify_and_transfer_candidates` stay observable; the loop over
the candidates is `processAll`, and a Python exception that escapes the
per-candidate handler is the `Except.error` of `stepCandidate`.
-/

/-- The analyzer's `get_table_schema`: unlike the resume-agent one it
returns an empty column list when the table is absent. -/
def get_table_schema (db : DB) (table_name : String) : SchemaResult :=
  match alookup db table_name with
  | none => ⟨table_name, []⟩
  | some tbl => ⟨table_name, schemaPairs tbl⟩

/-- One log line of the classify-and-transfer loop, keeping the kinds the
spec distinguishes. -/
inductive Event
  | skippedBlank
  | invalidCategory (raw : String)
  | classified (category : String)
  | createdTable (tableName : String)
  | candidateError
deriving DecidableEq

/-- Whether an event is the per-candidate error log of the except-branch. -/
def isErrEvent : Event → Bool
  | Event.candidateError => true
  | _ => false

/-- The number of per-candidate error logs in a run. -/
def errCount (evs : List Event) : Nat := (evs.filter isErrEvent).length

/-- The destination table name of a category:
`ai_classification.replace(" ", "_").lower() + "_candidates"` (replacing
a space and lowercasing commute, so one pass over the characters). -/
def slug (category : String) : String :=
  ⟨category.data.map (fun ch => if ch = ' ' then '_' else ch.toLower)⟩ ++ "_candidates"

/-- The skill text of a candidate: `candidate.get('skills', '').strip()`.
A missing key defaults to the empty string; a stored non-string value (for
example NULL, Python None) has no `.strip` and raises AttributeError,
which is outside the per-candidate try block. -/
def skillsOf (c : Row) : Except String String :=
  match alookup c "skills" with
  | none => Except.ok ""
  | some (Value.str s) => Except.ok (pyStrip s)
  | some _ => Except.error "AttributeError: object has no attribute strip"

/-- Whether the candidate is the blank-skill case the loop skips. -/
def isBlank (c : Row) : Bool := decide (skillsOf c = Except.ok "")

/-- Whether the skill read of the candidate returns normally (the stored
value is a string or the key is absent). -/
def readsOk (c : Row) : Bool :=
  match skillsOf c with
  | Except.ok _ => true
  | Except.error _ => false

/-- The classification parsed from the raw LLM response:
`response.text.strip()` when the response has text, the literal
`"Unclassified"` default otherwise. -/
def parsedAnswer (raw : String) : String :=
  if raw = "" then "Unclassified" else pyStrip raw

/-- The running state of the loop: the database inside the open
transaction, the `created_tables` set, the per-category transferred
counters, and the log so far. -/
structure LoopState where
  db : DB
  created : List String
  counts : List (String × Nat)
  events : List Event
deriving DecidableEq

/-- The source-table type of a column name, defaulting to TEXT, as the
destination-table creation derives it from the candidates schema. -/
def typeFor (types : List (String × String)) (k : String) : String :=
  (alookup types k).getD "TEXT"

/-- The destination table created for the current candidate: one column
per key of the candidate row, typed from the source-table type map, no
constraints. -/
def mkTableFrom (c : Row) (types : List (String × String)) : Table :=
  { schema := c.map (fun kv => col kv.1 (typeFor types kv.1)), rows := [] }

/-- Increment the transferred counter of one category. -/
def bump (counts : List (String × Nat)) (cat : String) : List (String × Nat) :=
  counts.map (fun p => if p.1 = cat then (p.1, p.2 + 1) else p)

/-- The check-and-create step for a destination table: skipped when the
table is in `created_tables`, otherwise the schema is checked and the
table created when absent; either way the table is remembered. -/
def ensureTable (db : DB) (created : List String) (target : String) (c : Row)
    (types : List (String × String)) : DB × List String × List Event :=
  if decide (target ∈ created) then (db, created, [])
  else
    match (get_table_schema db target).columns with
    | [] => ((target, mkTableFrom c types) :: db, target :: created, [Event.createdTable target])
    | _ :: _ => (db, target :: created, [])

/-- The tail of the per-candidate processing once the category `ai` is
settled: compute the destination slug, ensure the table, insert the row
and bump the counter; an insert failure is caught, logged and skipped. -/
def transferCandidate (types : List (String × String)) (s : LoopState) (c : Row)
    (ai : String) (clsEvents : List Event) : LoopState :=
  let target := slug ai
  match ensureTable s.db s.created target c types with
  | (db1, created1, tblEvents) =>
    let evs := s.events ++ clsEvents ++ tblEvents
    match alookup db1 target with
    | none =>
      { db := db1, created := created1, counts := s.counts,
        events := evs ++ [Event.candidateError] }
    | some tbl =>
      match sqliteInsert tbl c with
      | Except.error _ =>
        { db := db1, created := created1, counts := s.counts,
          events := evs ++ [Event.candidateError] }
      | Except.ok (tbl', _) =>
        { db := replaceTable db1 target tbl', created := created1,
          counts := bump s.counts ai, events := evs }

/-- The per-candidate processing after a successful skill read: skip a
blank skill, otherwise classify (with the fallback to the first category
for an empty or invalid answer), ensure the destination table and insert.
Every failure in here (classifier call, insert) is inside the
per-candidate try block: it is logged and the loop moves on. -/
def stepBody (cls : Classifier) (types : List (String × String)) (s : LoopState)
    (c : Row) (sk : String) : LoopState :=
  if sk = "" then { s with events := s.events ++ [Event.skippedBlank] }
  else
    match cls sk with
    | Except.error _ => { s with events := s.events ++ [Event.candidateError] }
    | Except.ok raw =>
      let ai0 := parsedAnswer raw
      let ai := if decide (ai0 ∈ CATEGORIES) then ai0 else CATEGORIES.headD ""
      let clsEvents :=
        if decide (ai0 ∈ CATEGORIES) then [Event.classified ai]
        else [Event.invalidCategory ai0, Event.classified ai]
      transferCandidate types s c ai clsEvents

/-- The body of the per-candidate loop.  The skill read happens before the
try block, so its AttributeError is the `Except.error` that aborts the
batch; everything after it runs in `stepBody` and never aborts. -/
def stepCandidate (cls : Classifier) (types : List (String × String)) (s : LoopState)
    (c : Row) : Except String LoopState :=
  match skillsOf c with
  | Except.error e => Except.error e
  | Except.ok sk => Except.ok (stepBody cls types s c sk)

/-- The loop over the whole batch, in input order. -/
def processAll (cls : Classifier) (types : List (String × String)) :
    LoopState → List Row → Except String LoopState
  | s, [] => Except.ok s
  | s, c :: rest =>
    match stepCandidate cls types s c with
    | Except.error e => Except.error e
    | Except.ok s' => processAll cls types s' rest

/-- The result dict of `classify_and_transfer_candidates`. -/
structure TransferResult where
  success : Bool
  message : String
  transferred_counts : List (String × Nat)
deriving DecidableEq

/-- The transferred counters before the loop: every fixed category at 0. -/
def initCounts : List (String × Nat) := CATEGORIES.map (fun cat => (cat, 0))

/-- The analyzer's `classify_and_transfer_candidates`: empty input returns
success immediately, a missing API key fails the whole call, otherwise the
source-table types are resolved once and the batch runs in one
transaction, committed at the end; an exception at the batch level rolls
the whole transaction back and returns a failure with empty counts.
Returns the result dict, the database after the call, and the log. -/
def classify_and_transfer_candidates (cls : Classifier) (apiKeySet : Bool) (db : DB)
    (candidates_data : List Row) : TransferResult × DB × List Event :=
  if candidates_data.isEmpty then
    (⟨true, "No candidate data provided for classification.", []⟩, db, [])
  else if !apiKeySet then
    (⟨false, "AI Classification API key is missing.", []⟩, db, [])
  else
    let types := (get_table_schema db "candidates").columns
    match processAll cls types ⟨db, [], initCounts, []⟩ candidates_data with
    | Except.ok s =>
      (⟨true, "Candidate classification and transfer completed.", s.counts⟩, s.db, s.events)
    | Except.error e =>
      (⟨false, "An unexpected error occurred during classification and transfer: " ++ e, []⟩,
       db, [])

end Analyzer

namespace JdTest

/-- The jd_agent_test server's `analyze_jd_industry`: an empty job
description returns "Unknown" before the API-key check and before any
classifier call; a raised classifier error becomes an "Error: ..." string;
an empty or invalid classification falls back to the first category. -/
def analyze_jd_industry (cls : Classifier) (apiKeySet : Bool) (job_description : String) :
    String :=
  if job_description = "" then "Unknown"
  else if !apiKeySet then "Error: API Key Missing"
  else
    match cls job_description with
    | Except.error e => "Error: " ++ e
    | Except.ok raw =>
      let ai0 := if raw = "" then "Unknown" else pyStrip raw
      if decide (ai0 ∈ CATEGORIES) then ai0 else CATEGORIES.headD ""

end JdTest

namespace Dispatch

/-!
The `call_mcp_tool` handler, identical in shape in both servers
(src/local_mcp_resume_agent/server.py and src/local_mcp_analyzer/server.py):
a registry of named tools, a structured not-implemented payload for an
unknown name, and a structured failure payload for a tool whose invocation
raises.  A tool implementation is `String → Except String String` (args to
serialized response, `Except.error` modelling a raised exception); the
handler itself is a total function, so no exception crosses the boundary.
-/

/-- A registered tool: serialized arguments to serialized response, or a
raised exception. -/
def ToolImpl : Type := String → Except String String

/-- What the handler sends back: the serialized tool response, or the
structured `{success : false, message}` failure payload. -/
inductive DispatchResult
  | ok (response : String)
  | err (message : String)
deriving DecidableEq

/-- The `call_mcp_tool` handler of both tool servers. -/
def call_mcp_tool (tools : List (String × ToolImpl)) (name : String) (arguments : String) :
    DispatchResult :=
  match alookup tools name with
  | none => DispatchResult.err ("Tool " ++ sq name ++ " not implemented by this server.")
  | some f =>
    match f arguments with
    | Except.ok r => DispatchResult.ok r
    | Except.error e =>
      DispatchResult.err ("Failed to execute tool " ++ sq name ++ ": " ++ e)

end Dispatch

/-!
Concrete fixtures, used by the closed instances below: the candidates
table exactly as src/dbs/create_db.py declares it (id INTEGER PRIMARY KEY
AUTOINCREMENT, name TEXT NOT NULL, email TEXT UNIQUE NOT NULL, the rest
plain), empty, and a database holding only it.
-/

/-- The schema of the `candidates` table of src/dbs/create_db.py. -/
def candidatesSchema : List Column :=
  [⟨"id", "INTEGER", false, false, true⟩,
   ⟨"name", "TEXT", true, false, false⟩,
   ⟨"email", "TEXT", true, true, false⟩,
   col "phone" "TEXT",
   col "current_role" "TEXT",
   ⟨"experience_years", "INTEGER", false, false, false⟩,
   col "skills" "TEXT",
   col "education" "TEXT",
   col "location" "TEXT",
   col "linkedin_profile" "TEXT",
   col "last_updated" "TEXT"]

/-- The empty candidates table. -/
def candidatesTable : Table := ⟨candidatesSchema, []⟩

/-- A database holding only the empty candidates table. -/
def seededDB : DB := [("candidates", candidatesTable)]

/-- The number of transferred candidates over all categories. -/
def sumCounts (l : List (String × Nat)) : Nat := (l.map Prod.snd).sum

/-- The number of batch candidates that are not blank-skill skips. -/
def nonBlankCount (l : List Row) : Nat :=
  (l.filter (fun c => !Analyzer.isBlank c)).length

/-!
Theorems.  Each claim C1..C10 of the specification review has one theorem
below; shared lemmas about the embedding come first.
-/

/-- In a row with no repeated keys, looking up the key of a member pair
finds that pair's value. -/
theorem alookup_of_mem_nodup (c : Row) (hnodup : (c.map Prod.fst).Nodup)
    (kv : String × Value) (h : kv ∈ c) : alookup c kv.1 = some kv.2 := by
  induction c with
  | nil => cases h
  | cons hd rest ih =>
    simp only [List.map_cons, List.nodup_cons] at hnodup
    rcases List.mem_cons.mp h with rfl | hm
    · simp [alookup]
    · have hne : hd.1 ≠ kv.1 := by
        intro he
        exact hnodup.1 (he ▸ List.mem_map_of_mem Prod.fst hm)
      simp only [alookup, if_neg hne]
      exact ih hnodup.2 hm

/-- The row stored when inserting a candidate into the table just created
from it is the candidate itself. -/
theorem storedRow_mkTableFrom (c : Row) (types : List (String × String)) (rid : Int)
    (hnodup : (c.map Prod.fst).Nodup) :
    storedRow (Analyzer.mkTableFrom c types).schema c none rid = c := by
  unfold storedRow Analyzer.mkTableFrom
  simp only [List.map_map]
  have hcong : ∀ kv ∈ c,
      ((fun cc : Column =>
          (cc.name, if (none : Option String) = some cc.name then Value.int rid
            else (alookup c cc.name).getD Value.null))
        ∘ (fun kv : String × Value => col kv.1 (Analyzer.typeFor types kv.1))) kv = kv := by
    intro kv hkv
    simp [col, alookup_of_mem_nodup c hnodup kv hkv]
  rw [List.map_congr_left hcong]
  simp

/-- Inserting a non-empty candidate row into the constraint-free table
just created from its own keys always succeeds, stores the candidate row
itself, and assigns rowid 1. -/
theorem sqliteInsert_mkTableFrom (c : Row) (types : List (String × String))
    (hne : c ≠ []) (hnodup : (c.map Prod.fst).Nodup) :
    sqliteInsert (Analyzer.mkTableFrom c types) c
      = Except.ok (⟨(Analyzer.mkTableFrom c types).schema, [c]⟩, 1) := by
  have hie : c.isEmpty = false := by
    cases c with
    | nil => exact absurd rfl hne
    | cons a l => rfl
  have hnames : colNames (Analyzer.mkTableFrom c types).schema = c.map Prod.fst := by
    simp [Analyzer.mkTableFrom, colNames, col]
  have hfind : c.find? (fun kv => !decide (kv.1 ∈ colNames (Analyzer.mkTableFrom c types).schema))
      = none := by
    rw [List.find?_eq_none]
    intro kv hkv
    simp [hnames, List.mem_map_of_mem Prod.fst hkv]
  have hpk : (Analyzer.mkTableFrom c types).schema.find? (fun cc => cc.pk) = none := by
    rw [List.find?_eq_none]
    intro cc hcc
    simp only [Analyzer.mkTableFrom, List.mem_map] at hcc
    obtain ⟨kv, _, rfl⟩ := hcc
    simp [col]
  have hcc : ∀ rid : Int, checkConstraints (Analyzer.mkTableFrom c types).schema
      (storedRow (Analyzer.mkTableFrom c types).schema c none rid)
      (Analyzer.mkTableFrom c types).rows = none := by
    intro rid
    unfold checkConstraints
    have h1 : (Analyzer.mkTableFrom c types).schema.find? (violatesNotNull
        (storedRow (Analyzer.mkTableFrom c types).schema c none rid)) = none := by
      rw [List.find?_eq_none]
      intro cc hcc
      simp only [Analyzer.mkTableFrom, List.mem_map] at hcc
      obtain ⟨kv, _, rfl⟩ := hcc
      simp [violatesNotNull, col]
    have h2 : (Analyzer.mkTableFrom c types).schema.find? (fun cc => violatesUnique
        (storedRow (Analyzer.mkTableFrom c types).schema c none rid)
        (Analyzer.mkTableFrom c types).rows cc) = none := by
      rw [List.find?_eq_none]
      intro cc hcc
      simp only [Analyzer.mkTableFrom, List.mem_map] at hcc
      obtain ⟨kv, _, rfl⟩ := hcc
      simp [violatesUnique, col]
    rw [h1, h2]
  unfold sqliteInsert
  rw [hie, hfind, hpk]
  unfold insertRow
  rw [hcc]
  rw [storedRow_mkTableFrom c types _ hnodup]
  simp [Analyzer.mkTableFrom]

/-- Replacing the table found under a name makes lookups under that name
return the replacement. -/
theorem alookup_replaceTable (db : DB) (n : String) (t t' : Table)
    (h : alookup db n = some t) :
    alookup (replaceTable db n t') n = some t' := by
  induction db with
  | nil => cases h
  | cons hd rest ih =>
    obtain ⟨k, v⟩ := hd
    by_cases hk : k = n
    · subst hk
      simp [replaceTable, alookup]
    · simp only [alookup, if_neg hk] at h
      simp only [replaceTable, if_neg hk, alookup]
      exact ih h

/-- When the destination table is neither remembered nor present, the
check-and-create step creates it from the current candidate and remembers
it. -/
theorem ensureTable_absent (db : DB) (created : List String) (target : String) (c : Row)
    (types : List (String × String))
    (h1 : ¬ target ∈ created) (h2 : alookup db target = none) :
    Analyzer.ensureTable db created target c types
      = ((target, Analyzer.mkTableFrom c types) :: db, target :: created,
         [Analyzer.Event.createdTable target]) := by
  unfold Analyzer.ensureTable
  simp [Analyzer.get_table_schema, h1, h2]

/-- A successful skill read turns the per-candidate step into its body. -/
theorem stepCandidate_eq (cls : Classifier) (types : List (String × String))
    (s : Analyzer.LoopState) (c : Row) (sk : String)
    (hsk : Analyzer.skillsOf c = Except.ok sk) :
    Analyzer.stepCandidate cls types s c
      = Except.ok (Analyzer.stepBody cls types s c sk) := by
  unfold Analyzer.stepCandidate
  rw [hsk]

/-- C1: in the per-candidate step, for a candidate whose skills field is
non-blank, when the classifier answers with a response whose parsed
classification is empty or not one of the seven fixed categories, the
candidate is not dropped: the fallback log event for the invalid category
is emitted (distinct from the clean-classification event), the candidate
row is transferred into the first fixed category's table (Software
Development), and that category's transferred counter is incremented.
Stated with the destination table not yet present, so the insert into the
freshly created table succeeds, which is what transferring requires. -/
theorem classify_invalid_answer_falls_back (cls : Classifier)
    (types : List (String × String)) (s : Analyzer.LoopState) (c : Row) (sk raw : String)
    (hsk : Analyzer.skillsOf c = Except.ok sk) (hne : sk ≠ "")
    (hcls : cls sk = Except.ok raw)
    (hinval : ¬ Analyzer.parsedAnswer raw ∈ CATEGORIES)
    (habsent : alookup s.db "software_development_candidates" = none)
    (hnotcreated : ¬ "software_development_candidates" ∈ s.created)
    (hnodup : (c.map Prod.fst).Nodup) :
    ∃ s', Analyzer.stepCandidate cls types s c = Except.ok s'
      ∧ s'.counts = Analyzer.bump s.counts "Software Development"
      ∧ Analyzer.Event.invalidCategory (Analyzer.parsedAnswer raw) ∈ s'.events
      ∧ ∃ tbl, alookup s'.db "software_development_candidates" = some tbl
          ∧ tbl.rows = [c] := by
  have hcne : c ≠ [] := by
    rintro rfl
    simp [Analyzer.skillsOf, alookup] at hsk
    exact hne hsk.symm
  have hhead : CATEGORIES.headD "" = "Software Development" := rfl
  have hslug : Analyzer.slug "Software Development" = "software_development_candidates" := by
    decide
  have hdec : decide (Analyzer.parsedAnswer raw ∈ CATEGORIES) = false := decide_eq_false hinval
  rw [stepCandidate_eq cls types s c sk hsk]
  unfold Analyzer.stepBody Analyzer.transferCandidate
  rw [if_neg hne, hcls]
  simp only [hdec, Bool.false_eq_true, if_false, hhead, hslug]
  rw [ensureTable_absent s.db s.created _ c types hnotcreated habsent]
  simp only [alookup, reduceIte]
  rw [sqliteInsert_mkTableFrom c types hcne hnodup]
  refine ⟨_, rfl, rfl, ?_, ?_⟩
  · simp
  · refine ⟨⟨(Analyzer.mkTableFrom c types).schema, [c]⟩, ?_, rfl⟩
    exact alookup_replaceTable _ _ (Analyzer.mkTableFrom c types) _ (by simp [alookup])

/-- C1 witness: a concrete candidate with skill text Python and a
classifier answering Gibberish lands in software_development_candidates
with the invalid-category log event emitted. -/
theorem classify_invalid_answer_falls_back_witness :
    Analyzer.skillsOf [("id", Value.int 1), ("skills", Value.str "Python")]
        = Except.ok "Python"
      ∧ ¬ Analyzer.parsedAnswer "Gibberish" ∈ CATEGORIES
      ∧ ∃ s', Analyzer.stepCandidate (fun _ => Except.ok "Gibberish") []
            ⟨seededDB, [], Analyzer.initCounts, []⟩
            [("id", Value.int 1), ("skills", Value.str "Python")] = Except.ok s'
          ∧ s'.counts = Analyzer.bump Analyzer.initCounts "Software Development"
          ∧ Analyzer.Event.invalidCategory (Analyzer.parsedAnswer "Gibberish") ∈ s'.events
          ∧ ∃ tbl, alookup s'.db "software_development_candidates" = some tbl
              ∧ tbl.rows = [[("id", Value.int 1), ("skills", Value.str "Python")]] :=
  ⟨by decide, by decide,
   classify_invalid_answer_falls_back (fun _ => Except.ok "Gibberish") []
     ⟨seededDB, [], Analyzer.initCounts, []⟩
     [("id", Value.int 1), ("skills", Value.str "Python")] "Python" "Gibberish"
     (by decide) (by decide) rfl (by decide) (by decide) (by decide) (by decide)⟩

/-- C2: `classify_and_transfer_candidates` on an empty candidate sequence
returns success with an empty transferred_counts mapping, leaves the
database untouched and is independent of the classifier (the right-hand
side does not mention `cls`, so no classifier call is involved), for any
API-key state. -/
theorem classify_empty_input_short_circuit (cls : Classifier) (apiKeySet : Bool) (db : DB) :
    Analyzer.classify_and_transfer_candidates cls apiKeySet db []
      = (⟨true, "No candidate data provided for classification.", []⟩, db, []) := rfl

/-- C5: for every non-empty new-values mapping and every empty or
whitespace-only condition string, `update_data` fails with the
safety-validation message and returns the database unchanged (no storage
access, no row modified), regardless of the mapping's contents. -/
theorem update_empty_condition_rejected (db : DB) (table_name : String) (new_values : Row)
    (condition : String) (hnv : new_values ≠ []) (hcond : pyStrip condition = "") :
    Resume.update_data db table_name new_values condition
      = (Resume.mkRes false ("Update condition cannot be empty. " ++
          "This is a safety measure to prevent accidental update of all rows."), db) := by
  have h1 : new_values.isEmpty = false := by
    cases new_values with
    | nil => exact absurd rfl hnv
    | cons a l => rfl
  simp [Resume.update_data, h1, hcond]

/-- C5 witness: a whitespace-only condition with a concrete non-empty
new-values mapping hits the safety rejection. -/
theorem update_empty_condition_rejected_witness :
    ([("name", Value.str "X")] : Row) ≠ [] ∧ pyStrip "   " = "" ∧
      Resume.update_data seededDB "candidates" [("name", Value.str "X")] "   "
        = (Resume.mkRes false ("Update condition cannot be empty. " ++
            "This is a safety measure to prevent accidental update of all rows."), seededDB) :=
  ⟨by decide, by decide,
   update_empty_condition_rejected seededDB "candidates" [("name", Value.str "X")] "   "
     (by decide) (by decide)⟩

/-- C7 counterexample: the resume-agent server's `get_table_schema` does
not return an empty columns list for an absent table: it raises (modelled
as `Except.error`), so the claim is false for that cited implementation. -/
theorem resume_schema_missing_table_raises :
    Resume.get_table_schema [] "missing"
        = Except.error "Table 'missing' not found or no schema information."
      ∧ Resume.get_table_schema [] "missing"
        ≠ Except.ok ⟨"missing", []⟩ := by
  exact ⟨rfl, by decide⟩

/-- C7 amended: for a table name absent from the store, the analyzer's
(and the identical jd_agent_test) `get_table_schema` returns the
table-name-with-empty-columns result, while the resume-agent's
`get_table_schema` raises a ValueError instead. -/
theorem get_table_schema_absent_behavior (db : DB) (table_name : String)
    (habs : alookup db table_name = none) :
    Analyzer.get_table_schema db table_name = ⟨table_name, []⟩
      ∧ Resume.get_table_schema db table_name
        = Except.error ("Table " ++ sq table_name ++ " not found or no schema information.") := by
  constructor
  · simp [Analyzer.get_table_schema, habs]
  · simp [Resume.get_table_schema, habs]

/-- C7 amended witness: the table `nope` is absent from the seeded
database and both behaviors show concretely. -/
theorem get_table_schema_absent_behavior_witness :
    alookup seededDB "nope" = none
      ∧ (Analyzer.get_table_schema seededDB "nope" = ⟨"nope", []⟩
        ∧ Resume.get_table_schema seededDB "nope"
          = Except.error ("Table " ++ sq "nope" ++ " not found or no schema information.")) :=
  ⟨by decide, get_table_schema_absent_behavior seededDB "nope" (by decide)⟩

/-- C8 counterexample: the not-implemented failure message carries the
suffix " by this server.", so the payload is not the claimed
`Tool '<name>' not implemented`. -/
theorem dispatch_unknown_tool_message_counterexample :
    Dispatch.call_mcp_tool [] "foo" ""
        = Dispatch.DispatchResult.err "Tool 'foo' not implemented by this server."
      ∧ ("Tool 'foo' not implemented by this server." : String)
        ≠ "Tool 'foo' not implemented" := by
  exact ⟨rfl, by decide⟩

/-- C8 amended: the dispatcher (a total function, so no exception crosses
the tool boundary) returns the structured failure payload with message
`Tool '<name>' not implemented by this server.` for an unknown operation
name, and catches a raised invocation error into the structured payload
with message `Failed to execute tool '<name>': <error>`. -/
theorem dispatch_structured_failures (tools : List (String × Dispatch.ToolImpl))
    (name arguments : String) :
    (alookup tools name = none →
      Dispatch.call_mcp_tool tools name arguments
        = Dispatch.DispatchResult.err ("Tool " ++ sq name ++ " not implemented by this server."))
    ∧ (∀ f e, alookup tools name = some f → f arguments = Except.error e →
        Dispatch.call_mcp_tool tools name arguments
          = Dispatch.DispatchResult.err ("Failed to execute tool " ++ sq name ++ ": " ++ e)) := by
  constructor
  · intro h
    simp [Dispatch.call_mcp_tool, h]
  · intro f e hf he
    simp [Dispatch.call_mcp_tool, hf, he]

/-- C8 amended witness: a concrete unknown tool and a concrete raising
tool both come back as structured failure payloads. -/
theorem dispatch_structured_failures_witness :
    Dispatch.call_mcp_tool [("boom", fun _ => Except.error "kaput")] "nope" "args"
        = Dispatch.DispatchResult.err "Tool 'nope' not implemented by this server."
      ∧ Dispatch.call_mcp_tool [("boom", fun _ => Except.error "kaput")] "boom" "args"
        = Dispatch.DispatchResult.err "Failed to execute tool 'boom': kaput" :=
  ⟨(dispatch_structured_failures [("boom", fun _ => Except.error "kaput")] "nope" "args").1 rfl,
   (dispatch_structured_failures [("boom", fun _ => Except.error "kaput")] "boom" "args").2
     (fun _ => Except.error "kaput") "kaput" rfl rfl⟩

/-- C4: `insert_data_from_csv` with a header containing any column absent
from the destination schema fails the whole import as a validation error
before any row is written: the result is the validation failure with zero
rows inserted and the database is returned unchanged, regardless of the
data rows. -/
theorem csv_unknown_column_rejected_before_insert (db : DB) (table_name csv_content : String)
    (tbl : Table) (headerLine : String) (dataLines : List String)
    (hne : pyStrip csv_content ≠ "")
    (hlines : Resume.csvLines csv_content = headerLine :: dataLines)
    (htbl : alookup db table_name = some tbl)
    (hbad : ∃ c ∈ splitOnChar ',' headerLine,
      decide (c ∈ (schemaPairs tbl).map Prod.fst) = false) :
    ∃ badCol,
      Resume.insert_data_from_csv db table_name csv_content
        = ({ Resume.mkRes false ("CSV data validation error: CSV column " ++ sq badCol ++
            " not found in table " ++ sq table_name ++
            ". Please ensure CSV headers match database column names.") with
            rows_inserted := some 0 }, db) := by
  have hfind : ∃ bad, (splitOnChar ',' headerLine).find?
      (fun c => !decide (c ∈ (schemaPairs tbl).map Prod.fst)) = some bad := by
    obtain ⟨c, hc, hcf⟩ := hbad
    have : ((splitOnChar ',' headerLine).find?
        (fun c => !decide (c ∈ (schemaPairs tbl).map Prod.fst))).isSome := by
      rw [List.find?_isSome]
      exact ⟨c, hc, by simp only [hcf, Bool.not_false]⟩
    exact Option.isSome_iff_exists.mp this
  obtain ⟨bad, hb⟩ := hfind
  refine ⟨bad, ?_⟩
  unfold Resume.insert_data_from_csv
  rw [if_neg hne, hlines]
  simp only [Resume.get_table_schema, htbl, hb]

/-- C4 witness: a CSV whose header names the unknown column `bogus` is
rejected whole against the seeded candidates table, with a valid data row
present. -/
theorem csv_unknown_column_rejected_before_insert_witness :
    pyStrip "name,bogus\nAda,1" ≠ ""
      ∧ Resume.csvLines "name,bogus\nAda,1" = ["name,bogus", "Ada,1"]
      ∧ alookup seededDB "candidates" = some candidatesTable
      ∧ (∃ c ∈ splitOnChar ',' "name,bogus",
          decide (c ∈ (schemaPairs candidatesTable).map Prod.fst) = false)
      ∧ ∃ badCol,
        Resume.insert_data_from_csv seededDB "candidates" "name,bogus\nAda,1"
          = ({ Resume.mkRes false ("CSV data validation error: CSV column " ++ sq badCol ++
              " not found in table " ++ sq "candidates" ++
              ". Please ensure CSV headers match database column names.") with
              rows_inserted := some 0 }, seededDB) :=
  ⟨by decide, by decide, by decide, by decide,
   csv_unknown_column_rejected_before_insert seededDB "candidates" "name,bogus\nAda,1"
     candidatesTable "name,bogus" ["Ada,1"] (by decide) (by decide) (by decide) (by decide)⟩

/-- A candidate whose skill read returns normally never aborts the loop:
the step is `stepBody`. -/
theorem stepCandidate_ok_of_reads (cls : Classifier) (types : List (String × String))
    (s : Analyzer.LoopState) (c : Row) (hro : Analyzer.readsOk c = true) :
    ∃ sk, Analyzer.skillsOf c = Except.ok sk
      ∧ Analyzer.stepCandidate cls types s c
        = Except.ok (Analyzer.stepBody cls types s c sk) := by
  cases h : Analyzer.skillsOf c with
  | ok sk => exact ⟨sk, rfl, by simp [Analyzer.stepCandidate, h]⟩
  | error e =>
    unfold Analyzer.readsOk at hro
    rw [h] at hro
    cases hro

/-- A candidate whose skill read raises aborts the loop with that
exception. -/
theorem stepCandidate_error_of_bad_read (cls : Classifier) (types : List (String × String))
    (s : Analyzer.LoopState) (c : Row) (hro : Analyzer.readsOk c = false) :
    ∃ e, Analyzer.stepCandidate cls types s c = Except.error e := by
  cases h : Analyzer.skillsOf c with
  | ok sk =>
    unfold Analyzer.readsOk at hro
    rw [h] at hro
    cases hro
  | error e => exact ⟨e, by simp [Analyzer.stepCandidate, h]⟩

/-- One bad skill read anywhere in the batch makes the whole loop raise. -/
theorem processAll_error_of_bad (cls : Classifier) (types : List (String × String)) :
    ∀ (l : List Row) (s : Analyzer.LoopState),
      (∃ c ∈ l, Analyzer.readsOk c = false) →
      ∃ e, Analyzer.processAll cls types s l = Except.error e := by
  intro l
  induction l with
  | nil =>
    rintro s ⟨c, hc, _⟩
    cases hc
  | cons c rest ih =>
    rintro s ⟨c', hc', hbadc⟩
    by_cases hc : Analyzer.readsOk c = false
    · obtain ⟨e, he⟩ := stepCandidate_error_of_bad_read cls types s c hc
      exact ⟨e, by simp [Analyzer.processAll, he]⟩
    · have hcT : Analyzer.readsOk c = true := by
        cases hcc : Analyzer.readsOk c with
        | true => rfl
        | false => exact absurd hcc hc
      obtain ⟨sk, hsk, hstep⟩ := stepCandidate_ok_of_reads cls types s c hcT
      have hrest : ∃ c'' ∈ rest, Analyzer.readsOk c'' = false := by
        rcases List.mem_cons.mp hc' with rfl | hm
        · rw [hbadc] at hcT
          cases hcT
        · exact ⟨c', hm, hbadc⟩
      obtain ⟨e, he⟩ := ih _ hrest
      refine ⟨e, ?_⟩
      simp only [Analyzer.processAll, hstep]
      exact he

/-- C9: a candidate whose stored skills value is not a string (for
example NULL, Python None) makes the skill read raise outside the
per-candidate handler, so the whole batch fails: the call returns a
failure result with empty transferred_counts and the database is returned
unchanged (the transaction is rolled back, so no earlier insert of the
batch becomes durable). -/
theorem nonstring_skills_aborts_batch (cls : Classifier) (apiKeySet : Bool) (db : DB)
    (cands : List Row)
    (hbad : ∃ c ∈ cands, Analyzer.readsOk c = false) :
    (Analyzer.classify_and_transfer_candidates cls apiKeySet db cands).1.success = false
      ∧ (Analyzer.classify_and_transfer_candidates cls apiKeySet db cands).1.transferred_counts
        = []
      ∧ (Analyzer.classify_and_transfer_candidates cls apiKeySet db cands).2.1 = db := by
  have hie : cands.isEmpty = false := by
    cases cands with
    | nil =>
      obtain ⟨c, hc, _⟩ := hbad
      cases hc
    | cons a l => rfl
  unfold Analyzer.classify_and_transfer_candidates
  simp only [hie, Bool.false_eq_true, if_false]
  cases apiKeySet with
  | false => simp
  | true =>
    obtain ⟨e, he⟩ := processAll_error_of_bad cls
      ((Analyzer.get_table_schema db "candidates").columns) cands ⟨db, [], Analyzer.initCounts, []⟩ hbad
    simp [he]

/-- C9 witness: one candidate with a NULL skills value aborts a concrete
batch whole. -/
theorem nonstring_skills_aborts_batch_witness :
    (∃ c ∈ [[("id", Value.int 1), ("skills", Value.null)]], Analyzer.readsOk c = false)
      ∧ ((Analyzer.classify_and_transfer_candidates (fun _ => Except.ok "Banking") true seededDB
            [[("id", Value.int 1), ("skills", Value.null)]]).1.success = false
        ∧ (Analyzer.classify_and_transfer_candidates (fun _ => Except.ok "Banking") true seededDB
            [[("id", Value.int 1), ("skills", Value.null)]]).1.transferred_counts = []
        ∧ (Analyzer.classify_and_transfer_candidates (fun _ => Except.ok "Banking") true seededDB
            [[("id", Value.int 1), ("skills", Value.null)]]).2.1 = seededDB) :=
  ⟨by decide,
   nonstring_skills_aborts_batch (fun _ => Except.ok "Banking") true seededDB
     [[("id", Value.int 1), ("skills", Value.null)]] (by decide)⟩

/-- Error-log counting distributes over appended logs. -/
theorem errCount_append (a b : List Analyzer.Event) :
    Analyzer.errCount (a ++ b) = Analyzer.errCount a + Analyzer.errCount b := by
  simp [Analyzer.errCount, List.filter_append]

/-- Unfolding equation of `bump` on a cons cell. -/
theorem bump_cons (hd : String × Nat) (rest : List (String × Nat)) (cat : String) :
    Analyzer.bump (hd :: rest) cat
      = (if hd.1 = cat then (hd.1, hd.2 + 1) else hd) :: Analyzer.bump rest cat := rfl

/-- Unfolding equation of `sumCounts` on a cons cell. -/
theorem sumCounts_cons (hd : String × Nat) (rest : List (String × Nat)) :
    sumCounts (hd :: rest) = hd.2 + sumCounts rest := by
  simp [sumCounts]

/-- Bumping a counter never changes the key list. -/
theorem bump_fst (counts : List (String × Nat)) (cat : String) :
    (Analyzer.bump counts cat).map Prod.fst = counts.map Prod.fst := by
  induction counts with
  | nil => rfl
  | cons hd rest ih =>
    rw [bump_cons, List.map_cons, List.map_cons, ih]
    by_cases h : hd.1 = cat
    · simp [h]
    · simp [h]

/-- Bumping a category that is not present changes nothing. -/
theorem bump_not_mem (counts : List (String × Nat)) (cat : String)
    (h : ¬ cat ∈ counts.map Prod.fst) : Analyzer.bump counts cat = counts := by
  unfold Analyzer.bump
  have hcong : ∀ p ∈ counts, (if p.1 = cat then (p.1, p.2 + 1) else p) = p := by
    intro p hp
    rw [if_neg]
    intro he
    exact h (he ▸ List.mem_map_of_mem Prod.fst hp)
  rw [List.map_congr_left hcong]
  simp

/-- Bumping a category present exactly once adds one to the total. -/
theorem bump_sum (counts : List (String × Nat)) (cat : String)
    (hmem : cat ∈ counts.map Prod.fst) (hnodup : (counts.map Prod.fst).Nodup) :
    sumCounts (Analyzer.bump counts cat) = sumCounts counts + 1 := by
  induction counts with
  | nil => cases hmem
  | cons hd rest ih =>
    simp only [List.map_cons, List.nodup_cons] at hnodup
    rw [bump_cons, sumCounts_cons, sumCounts_cons]
    by_cases h : hd.1 = cat
    · have hnm : ¬ cat ∈ rest.map Prod.fst := h ▸ hnodup.1
      rw [bump_not_mem rest cat hnm, if_pos h]
      omega
    · have hm : cat ∈ rest.map Prod.fst := by
        rcases List.mem_cons.mp hmem with he | hm
        · exact absurd he.symm h
        · exact hm
      rw [if_neg h, ih hm hnodup.2]
      omega

/-- The check-and-create step never logs a per-candidate error. -/
theorem errCount_ensureTable (db : DB) (created : List String) (target : String) (c : Row)
    (types : List (String × String)) :
    Analyzer.errCount (Analyzer.ensureTable db created target c types).2.2 = 0 := by
  unfold Analyzer.ensureTable
  split
  · rfl
  · split <;> rfl

/-- The transfer tail always accounts for exactly one candidate: either
the category counter is bumped (clean insert) or one per-candidate error
is logged (caught insert failure), never both, never neither. -/
theorem transferCandidate_sum (types : List (String × String)) (s : Analyzer.LoopState)
    (c : Row) (ai : String) (clsEvents : List Analyzer.Event)
    (hai : ai ∈ CATEGORIES)
    (hkeys : s.counts.map Prod.fst = CATEGORIES)
    (hce : Analyzer.errCount clsEvents = 0) :
    (Analyzer.transferCandidate types s c ai clsEvents).counts.map Prod.fst = CATEGORIES
      ∧ sumCounts (Analyzer.transferCandidate types s c ai clsEvents).counts
          + Analyzer.errCount (Analyzer.transferCandidate types s c ai clsEvents).events
        = sumCounts s.counts + Analyzer.errCount s.events + 1 := by
  have hnodup : (s.counts.map Prod.fst).Nodup := by
    rw [hkeys]
    decide
  have hmem : ai ∈ s.counts.map Prod.fst := by
    rw [hkeys]
    exact hai
  have herr1 : Analyzer.errCount [Analyzer.Event.candidateError] = 1 := rfl
  unfold Analyzer.transferCandidate
  rcases he : Analyzer.ensureTable s.db s.created (Analyzer.slug ai) c types
    with ⟨db1, created1, tblEvents⟩
  have htbl0 : Analyzer.errCount tblEvents = 0 := by
    have h0 := errCount_ensureTable s.db s.created (Analyzer.slug ai) c types
    rw [he] at h0
    exact h0
  simp only [he]
  cases halo : alookup db1 (Analyzer.slug ai) with
  | none =>
    simp only [halo]
    constructor
    · rw [hkeys]
    · simp [errCount_append, htbl0, hce, herr1]
      omega
  | some tbl =>
    cases hins : sqliteInsert tbl c with
    | error e =>
      simp only [halo, hins]
      constructor
      · rw [hkeys]
      · simp [errCount_append, htbl0, hce, herr1]
        omega
    | ok p =>
      obtain ⟨tbl', rid⟩ := p
      simp only [halo, hins]
      constructor
      · rw [bump_fst, hkeys]
      · rw [bump_sum s.counts ai hmem hnodup]
        simp [errCount_append, htbl0, hce]
        omega

/-- One per-candidate body accounts for its candidate exactly: a blank
skill leaves counters and error logs unchanged; any other candidate adds
exactly one, either to its category counter or to the error log. -/
theorem stepBody_sum (cls : Classifier) (types : List (String × String))
    (s : Analyzer.LoopState) (c : Row) (sk : String)
    (hsk : Analyzer.skillsOf c = Except.ok sk)
    (hkeys : s.counts.map Prod.fst = CATEGORIES) :
    (Analyzer.stepBody cls types s c sk).counts.map Prod.fst = CATEGORIES
      ∧ sumCounts (Analyzer.stepBody cls types s c sk).counts
          + Analyzer.errCount (Analyzer.stepBody cls types s c sk).events
        = sumCounts s.counts + Analyzer.errCount s.events
          + (if Analyzer.isBlank c then 0 else 1) := by
  by_cases hb : sk = ""
  · have hblank : Analyzer.isBlank c = true := by
      simp [Analyzer.isBlank, hsk, hb]
    subst hb
    unfold Analyzer.stepBody
    simp only [reduceIte, hblank]
    exact ⟨hkeys, by simp [errCount_append]; rfl⟩
  · have hblank : Analyzer.isBlank c = false := by
      simp [Analyzer.isBlank, hsk, hb]
    unfold Analyzer.stepBody
    rw [if_neg hb]
    simp only [hblank, Bool.false_eq_true, if_false]
    cases hcl : cls sk with
    | error e =>
      dsimp only
      refine ⟨hkeys, ?_⟩
      rw [errCount_append]
      have h1 : Analyzer.errCount [Analyzer.Event.candidateError] = 1 := rfl
      omega
    | ok raw =>
      dsimp only
      by_cases hc0 : Analyzer.parsedAnswer raw ∈ CATEGORIES
      · have hd : decide (Analyzer.parsedAnswer raw ∈ CATEGORIES) = true := decide_eq_true hc0
        simp only [hd, if_true]
        have := transferCandidate_sum types s c (Analyzer.parsedAnswer raw)
          [Analyzer.Event.classified (Analyzer.parsedAnswer raw)] hc0 hkeys rfl
        exact ⟨this.1, by rw [this.2]⟩
      · have hd : decide (Analyzer.parsedAnswer raw ∈ CATEGORIES) = false := decide_eq_false hc0
        simp only [hd, Bool.false_eq_true, if_false]
        have hmem : CATEGORIES.headD "" ∈ CATEGORIES := by decide
        have := transferCandidate_sum types s c (CATEGORIES.headD "")
          [Analyzer.Event.invalidCategory (Analyzer.parsedAnswer raw),
           Analyzer.Event.classified (CATEGORIES.headD "")] hmem hkeys rfl
        exact ⟨this.1, by rw [this.2]⟩

/-- The initial counters carry exactly the seven fixed categories. -/
theorem initCounts_fst : Analyzer.initCounts.map Prod.fst = CATEGORIES := by decide

/-- Loop invariant over the whole batch: when every skill read returns
normally, the loop completes, the counter keys stay the fixed categories,
and the transferred total plus the per-candidate error count grows by
exactly the number of non-blank candidates. -/
theorem processAll_ok_sum (cls : Classifier) (types : List (String × String)) :
    ∀ (l : List Row) (s : Analyzer.LoopState),
      (∀ c ∈ l, Analyzer.readsOk c = true) →
      s.counts.map Prod.fst = CATEGORIES →
      ∃ s', Analyzer.processAll cls types s l = Except.ok s'
        ∧ s'.counts.map Prod.fst = CATEGORIES
        ∧ sumCounts s'.counts + Analyzer.errCount s'.events
          = sumCounts s.counts + Analyzer.errCount s.events + nonBlankCount l := by
  intro l
  induction l with
  | nil =>
    intro s _ hkeys
    exact ⟨s, rfl, hkeys, by simp [nonBlankCount]⟩
  | cons c rest ih =>
    intro s hall hkeys
    have hc := hall c (List.mem_cons_self c rest)
    obtain ⟨sk, hsk, hstep⟩ := stepCandidate_ok_of_reads cls types s c hc
    have hbody := stepBody_sum cls types s c sk hsk hkeys
    obtain ⟨s', hp, hk', hsum⟩ := ih (Analyzer.stepBody cls types s c sk)
      (fun c' hc' => hall c' (List.mem_cons_of_mem c hc')) hbody.1
    refine ⟨s', ?_, hk', ?_⟩
    · simp only [Analyzer.processAll, hstep]
      exact hp
    · rw [hsum, hbody.2]
      have hcount : nonBlankCount (c :: rest)
          = nonBlankCount rest + (if Analyzer.isBlank c then 0 else 1) := by
        simp only [nonBlankCount, List.filter_cons]
        cases hbl : Analyzer.isBlank c <;> simp
      rw [hcount]
      cases hbl : Analyzer.isBlank c <;> (simp; try omega)

/-- Every candidate is either a blank-skill skip or counted non-blank. -/
theorem nonBlank_add_blank (l : List Row) :
    nonBlankCount l + (l.filter Analyzer.isBlank).length = l.length := by
  induction l with
  | nil => rfl
  | cons c rest ih =>
    simp only [nonBlankCount, List.filter_cons, List.length_cons] at ih ⊢
    cases h : Analyzer.isBlank c
    · simp only [Bool.not_false, if_true, Bool.false_eq_true, if_false, List.length_cons]
      omega
    · simp only [Bool.not_true, Bool.false_eq_true, if_false, if_true, List.length_cons]
      omega

/-- C3: a blank-skill candidate is skipped with no classifier call (the
skip equation holds for every classifier), no insert (the state's
database is unchanged) and no counter increment; hence for a batch where
every skill read returns normally, exactly one candidate is blank, and no
per-candidate error is logged (every other candidate classifies and
inserts without error), the run succeeds and the transferred total over
all categories is the batch length minus one. -/
theorem blank_skills_skipped_and_counts (cls : Classifier) (db : DB) (cands : List Row)
    (hreads : ∀ c ∈ cands, Analyzer.readsOk c = true)
    (hblank : (cands.filter Analyzer.isBlank).length = 1)
    (hnoerr : Analyzer.errCount
        (Analyzer.classify_and_transfer_candidates cls true db cands).2.2 = 0) :
    (∀ (cls' : Classifier) (types : List (String × String)) (s : Analyzer.LoopState) (c : Row),
        Analyzer.skillsOf c = Except.ok "" →
        Analyzer.stepCandidate cls' types s c
          = Except.ok { s with events := s.events ++ [Analyzer.Event.skippedBlank] })
      ∧ (Analyzer.classify_and_transfer_candidates cls true db cands).1.success = true
      ∧ sumCounts
          (Analyzer.classify_and_transfer_candidates cls true db cands).1.transferred_counts + 1
        = cands.length := by
  have hskip : ∀ (cls' : Classifier) (types : List (String × String))
      (s : Analyzer.LoopState) (c : Row),
      Analyzer.skillsOf c = Except.ok "" →
      Analyzer.stepCandidate cls' types s c
        = Except.ok { s with events := s.events ++ [Analyzer.Event.skippedBlank] } := by
    intro cls' types s c hsk0
    rw [stepCandidate_eq cls' types s c "" hsk0]
    rfl
  have hne : cands ≠ [] := by
    intro h
    rw [h] at hblank
    simp at hblank
  have hie : cands.isEmpty = false := by
    cases cands with
    | nil => exact absurd rfl hne
    | cons a l => rfl
  obtain ⟨s', hp, hk', hsum⟩ := processAll_ok_sum cls
    ((Analyzer.get_table_schema db "candidates").columns) cands
    ⟨db, [], Analyzer.initCounts, []⟩ hreads initCounts_fst
  have hrun : Analyzer.classify_and_transfer_candidates cls true db cands
      = (⟨true, "Candidate classification and transfer completed.", s'.counts⟩,
         s'.db, s'.events) := by
    unfold Analyzer.classify_and_transfer_candidates
    simp only [hie, Bool.false_eq_true, if_false, Bool.not_true, hp]
  rw [hrun] at hnoerr ⊢
  refine ⟨hskip, rfl, ?_⟩
  have h0 : sumCounts Analyzer.initCounts = 0 := by decide
  have h1 : Analyzer.errCount ([] : List Analyzer.Event) = 0 := rfl
  have h2 := nonBlank_add_blank cands
  simp only [h0, h1] at hsum
  simp only at hnoerr ⊢
  omega

/-- C3 witness: a concrete two-candidate batch with one blank skill
transfers exactly one candidate. -/
theorem blank_skills_skipped_and_counts_witness :
    ([[("id", Value.int 1), ("skills", Value.str "Python, SQL")],
      [("id", Value.int 2), ("skills", Value.str "")]].filter Analyzer.isBlank).length = 1
      ∧ Analyzer.errCount
          (Analyzer.classify_and_transfer_candidates (fun _ => Except.ok "Banking") true seededDB
            [[("id", Value.int 1), ("skills", Value.str "Python, SQL")],
             [("id", Value.int 2), ("skills", Value.str "")]]).2.2 = 0
      ∧ ((Analyzer.classify_and_transfer_candidates (fun _ => Except.ok "Banking") true seededDB
            [[("id", Value.int 1), ("skills", Value.str "Python, SQL")],
             [("id", Value.int 2), ("skills", Value.str "")]]).1.success = true
        ∧ sumCounts
            (Analyzer.classify_and_transfer_candidates (fun _ => Except.ok "Banking") true seededDB
              [[("id", Value.int 1), ("skills", Value.str "Python, SQL")],
               [("id", Value.int 2), ("skills", Value.str "")]]).1.transferred_counts + 1
          = [[("id", Value.int 1), ("skills", Value.str "Python, SQL")],
             [("id", Value.int 2), ("skills", Value.str "")]].length) :=
  ⟨by decide, by decide,
   (blank_skills_skipped_and_counts (fun _ => Except.ok "Banking") seededDB
     [[("id", Value.int 1), ("skills", Value.str "Python, SQL")],
      [("id", Value.int 2), ("skills", Value.str "")]]
     (by decide) (by decide) (by decide)).2⟩

/-- Every rowid stored under the primary-key column is at most the
running maximum. -/
theorem maxRowId_ge (pkn : String) (rows : List Row) :
    ∀ r ∈ rows, ∀ k : Int, alookup r pkn = some (Value.int k) → k ≤ maxRowId pkn rows := by
  induction rows with
  | nil => intro r hr; cases hr
  | cons r0 rest ih =>
    intro r hr k hk
    rcases List.mem_cons.mp hr with rfl | hm
    · unfold maxRowId
      rw [hk]
      exact le_max_left k (maxRowId pkn rest)
    · have hrec := ih r hm k hk
      unfold maxRowId
      cases h0 : alookup r0 pkn with
      | none => exact hrec
      | some v =>
        cases v with
        | int n => exact le_trans hrec (le_max_right n (maxRowId pkn rest))
        | str s => exact hrec
        | null => exact hrec

/-- A lookup that finds a value does so under a present key. -/
theorem alookup_some_mem {α : Type} (l : List (String × α)) (k : String) (v : α)
    (h : alookup l k = some v) : k ∈ l.map Prod.fst := by
  induction l with
  | nil => cases h
  | cons hd rest ih =>
    by_cases hk : hd.1 = k
    · exact hk ▸ List.mem_map_of_mem Prod.fst (List.mem_cons_self hd rest)
    · obtain ⟨k0, v0⟩ := hd
      simp only [alookup, if_neg hk] at h
      exact List.mem_cons_of_mem _ (ih h)

/-- Looking a schema column up in a stored row gives the stored value:
the assigned rowid at the primary-key column, the inserted value at a
column the data provides, NULL elsewhere. -/
theorem alookup_storedRow (schema : List Column) (data : Row) (pkn : Option String)
    (rid : Int) (hnodup : (colNames schema).Nodup) (c : Column) (hc : c ∈ schema) :
    alookup (storedRow schema data pkn rid) c.name
      = some (if pkn = some c.name then Value.int rid
          else (alookup data c.name).getD Value.null) := by
  induction schema with
  | nil => cases hc
  | cons c0 rest ih =>
    simp only [colNames, List.map_cons, List.nodup_cons] at hnodup
    rcases List.mem_cons.mp hc with rfl | hm
    · simp [storedRow, alookup]
    · have hne : c0.name ≠ c.name := by
        intro he
        exact hnodup.1 (he ▸ List.mem_map_of_mem Column.name hm)
      simp only [storedRow, List.map_cons, alookup, if_neg hne]
      have := ih hnodup.2 hm
      simpa [storedRow] using this

/-- What a successful insert into a table with a rowid-alias column did:
the schema is kept, exactly the schema-shaped row for the data was
appended with the reported rowid, every data key names a schema column,
and no previously stored row carries the reported rowid. -/
theorem sqliteInsert_pk_ok (tbl : Table) (data : Row) (tbl' : Table) (rid : Int)
    (pkc : Column) (hpk : tbl.schema.find? (fun c => c.pk) = some pkc)
    (h : sqliteInsert tbl data = Except.ok (tbl', rid)) :
    tbl'.schema = tbl.schema
      ∧ tbl'.rows = tbl.rows ++ [storedRow tbl.schema data (some pkc.name) rid]
      ∧ (∀ kv ∈ data, kv.1 ∈ colNames tbl.schema)
      ∧ ∀ r ∈ tbl.rows, ¬ alookup r pkc.name = some (Value.int rid) := by
  unfold sqliteInsert at h
  by_cases hie : data.isEmpty
  · rw [if_pos hie] at h
    cases h
  rw [if_neg hie] at h
  cases hfind : data.find? (fun kv => !decide (kv.1 ∈ colNames tbl.schema)) with
  | some kv =>
    rw [hfind] at h
    cases h
  | none =>
    rw [hfind, hpk] at h
    dsimp only at h
    have hkeys : ∀ kv ∈ data, kv.1 ∈ colNames tbl.schema := by
      intro kv hkv
      have := List.find?_eq_none.mp hfind kv hkv
      simpa using this
    cases hid : alookup data pkc.name with
    | none =>
      rw [hid] at h
      dsimp only at h
      unfold insertRow at h
      cases hcc : checkConstraints tbl.schema
          (storedRow tbl.schema data (some pkc.name) (maxRowId pkc.name tbl.rows + 1))
          tbl.rows with
      | some e =>
        rw [hcc] at h
        cases h
      | none =>
        rw [hcc] at h
        obtain ⟨h1, h2⟩ := Prod.mk.injEq .. ▸ (Except.ok.injEq _ _ ).mp h
        refine ⟨?_, ?_, hkeys, ?_⟩
        · rw [← h1]
        · rw [← h1, ← h2]
        · intro r hr hlook
          have := maxRowId_ge pkc.name tbl.rows r hr rid hlook
          omega
    | some v =>
      cases v with
      | int n =>
        rw [hid] at h
        dsimp only at h
        cases hany : tbl.rows.any (fun r => decide (alookup r pkc.name = some (Value.int n))) with
        | true =>
          rw [hany] at h
          simp at h
        | false =>
          rw [hany] at h
          simp only [Bool.false_eq_true, if_false] at h
          unfold insertRow at h
          cases hcc : checkConstraints tbl.schema
              (storedRow tbl.schema data (some pkc.name) n) tbl.rows with
          | some e =>
            rw [hcc] at h
            cases h
          | none =>
            rw [hcc] at h
            obtain ⟨h1, h2⟩ := Prod.mk.injEq .. ▸ (Except.ok.injEq _ _ ).mp h
            refine ⟨?_, ?_, hkeys, ?_⟩
            · rw [← h1]
            · rw [← h1, ← h2]
            · intro r hr hlook
              have hall := List.any_eq_false.mp hany r hr
              rw [← h2] at hlook
              simp only [decide_eq_true_eq] at hall
              exact hall hlook
      | str sv =>
        rw [hid] at h
        dsimp only at h
        cases h
      | null =>
        rw [hid] at h
        dsimp only at h
        cases h

/-- A lookup that finds a value found a pair of the list. -/
theorem alookup_mem {α : Type} (l : List (String × α)) (k : String) (v : α)
    (h : alookup l k = some v) : (k, v) ∈ l := by
  induction l with
  | nil => cases h
  | cons hd rest ih =>
    obtain ⟨k0, v0⟩ := hd
    by_cases hk : k0 = k
    · subst hk
      have he : alookup ((k0, v0) :: rest) k0 = some v0 := by simp [alookup]
      rw [he] at h
      injection h with hv
      subst hv
      exact List.mem_cons_self _ _
    · simp only [alookup, if_neg hk] at h
      exact List.mem_cons_of_mem _ (ih h)

/-- C6 amended: after a successful `insert_data`, querying the same table
with an exact-match condition on the returned row id yields exactly one
row; that row carries the assigned id, agrees with the inserted data on
every column the data provides, and holds NULL in every other schema
column - so it equals the inserted data plus the id exactly when the data
covers all non-id schema columns, and not otherwise. -/
theorem insert_query_roundtrip_amended (db : DB) (table_name : String) (data : Row)
    (tbl : Table) (pkc : Column) (res : Resume.OpResult) (db' : DB) (rid : Int)
    (cond : String)
    (htbl : alookup db table_name = some tbl)
    (hnodup : (colNames tbl.schema).Nodup)
    (hpk : tbl.schema.find? (fun c => c.pk) = some pkc)
    (hpkname : pkc.name = "id")
    (hins : Resume.insert_data db table_name data = (res, db'))
    (hok : res.success = true)
    (hrid : res.row_id = some rid)
    (hcond : parseCond cond = some ("id", Value.int rid)) :
    ∃ r : Row,
      Resume.query_db_table db' table_name "*" cond = Except.ok [r]
        ∧ alookup r "id" = some (Value.int rid)
        ∧ (∀ k v, k ≠ "id" → alookup data k = some v → alookup r k = some v)
        ∧ (∀ c ∈ tbl.schema, c.name ≠ "id" → alookup data c.name = none →
            alookup r c.name = some Value.null) := by
  unfold Resume.insert_data at hins
  by_cases hie : data.isEmpty
  · rw [if_pos hie] at hins
    obtain ⟨h1, h2⟩ := Prod.mk.injEq .. ▸ hins
    rw [← h1] at hok
    simp [Resume.mkRes] at hok
  rw [if_neg hie, htbl] at hins
  dsimp only at hins
  cases hsi : sqliteInsert tbl data with
  | error e =>
    rw [hsi] at hins
    dsimp only at hins
    obtain ⟨h1, h2⟩ := Prod.mk.injEq .. ▸ hins
    rw [← h1] at hok
    simp [Resume.mkRes] at hok
  | ok p =>
    obtain ⟨tbl2, rid2⟩ := p
    rw [hsi] at hins
    dsimp only at hins
    obtain ⟨h1, h2⟩ := Prod.mk.injEq .. ▸ hins
    have hridr : rid2 = rid := by
      rw [← h1] at hrid
      simp only [Resume.mkRes, Option.some.injEq] at hrid
      exact hrid
    subst hridr
    obtain ⟨hsch, hrows, hkeys, hfresh⟩ := sqliteInsert_pk_ok tbl data tbl2 rid2 pkc hpk hsi
    rw [hpkname] at hrows hfresh
    have hpmem : pkc ∈ tbl.schema := List.mem_of_find?_eq_some hpk
    have hlook := fun (c : Column) (hc : c ∈ tbl.schema) =>
      alookup_storedRow tbl.schema data (some "id") rid2 hnodup c hc
    refine ⟨storedRow tbl.schema data (some "id") rid2, ?_, ?_, ?_, ?_⟩
    · -- the query returns exactly the stored row
      unfold Resume.query_db_table
      have halo2 : alookup db' table_name = some tbl2 := by
        rw [← h2]
        exact alookup_replaceTable db table_name tbl tbl2 htbl
      rw [halo2]
      dsimp only
      have hcne : cond ≠ "" := by
        rintro rfl
        cases hcond
      rw [if_neg hcne, hcond]
      dsimp only
      have hidmem : "id" ∈ colNames tbl2.schema := by
        rw [hsch]
        simp only [colNames, List.mem_map]
        exact ⟨pkc, hpmem, hpkname⟩
      rw [if_pos (by simpa using hidmem)]
      have hfilter : tbl2.rows.filter
          (fun r => decide (alookup r "id" = some (Value.int rid2)))
          = [storedRow tbl.schema data (some "id") rid2] := by
        rw [hrows, List.filter_append]
        have hnil : tbl.rows.filter
            (fun r => decide (alookup r "id" = some (Value.int rid2))) = [] := by
          rw [List.filter_eq_nil_iff]
          intro r hr
          simpa using hfresh r hr
        rw [hnil]
        have hri : alookup (storedRow tbl.schema data (some "id") rid2) "id"
            = some (Value.int rid2) := by
          have := hlook pkc hpmem
          rw [hpkname] at this
          simpa using this
        simp [hri]
      rw [hfilter]
      dsimp only
      rw [if_pos (by decide)]
    · have := hlook pkc hpmem
      rw [hpkname] at this
      simpa using this
    · intro k v hkne hkv
      have hkmem : k ∈ colNames tbl.schema := hkeys (k, v) (alookup_mem data k v hkv)
      simp only [colNames, List.mem_map] at hkmem
      obtain ⟨c, hc, hcn⟩ := hkmem
      have := hlook c hc
      rw [hcn] at this
      rw [this, if_neg (by simpa using fun he => hkne he.symm), hkv]
      rfl
    · intro c hc hcne hnone
      have := hlook c hc
      rw [this, if_neg (by simpa using fun he => hcne he.symm), hnone]
      rfl

/-- C6 counterexample: inserting a data mapping that does not cover all
schema columns succeeds, and the row queried back under the assigned id
carries NULL entries (for example `phone`) that the inserted-data-plus-id
mapping does not have, so the queried row does not equal the inserted
data extended with the id. -/
theorem roundtrip_padding_counterexample :
    (Resume.insert_data seededDB "candidates"
        [("name", Value.str "Ada"), ("email", Value.str "ada@example.com")]).1.success = true
      ∧ (Resume.insert_data seededDB "candidates"
          [("name", Value.str "Ada"), ("email", Value.str "ada@example.com")]).1.row_id
        = some 1
      ∧ Resume.query_db_table
          (Resume.insert_data seededDB "candidates"
            [("name", Value.str "Ada"), ("email", Value.str "ada@example.com")]).2
          "candidates" "*" "id = 1"
        = Except.ok [[("id", Value.int 1), ("name", Value.str "Ada"),
            ("email", Value.str "ada@example.com"), ("phone", Value.null),
            ("current_role", Value.null), ("experience_years", Value.null),
            ("skills", Value.null), ("education", Value.null), ("location", Value.null),
            ("linkedin_profile", Value.null), ("last_updated", Value.null)]]
      ∧ alookup [("id", Value.int 1), ("name", Value.str "Ada"),
            ("email", Value.str "ada@example.com"), ("phone", Value.null),
            ("current_role", Value.null), ("experience_years", Value.null),
            ("skills", Value.null), ("education", Value.null), ("location", Value.null),
            ("linkedin_profile", Value.null), ("last_updated", Value.null)] "phone"
        = some Value.null
      ∧ alookup ([("name", Value.str "Ada"), ("email", Value.str "ada@example.com"),
            ("id", Value.int 1)] : Row) "phone" = none := by
  exact ⟨by decide, by decide, by decide, by decide, by decide⟩

/-- C6 amended witness: the concrete insert of name and email into the
seeded candidates table round-trips through `id = 1` as the amended claim
states. -/
theorem insert_query_roundtrip_amended_witness :
    (Resume.insert_data seededDB "candidates"
        [("name", Value.str "Ada"), ("email", Value.str "ada@example.com")]).1.success = true
      ∧ parseCond "id = 1" = some ("id", Value.int 1)
      ∧ ∃ r : Row,
          Resume.query_db_table
              (Resume.insert_data seededDB "candidates"
                [("name", Value.str "Ada"), ("email", Value.str "ada@example.com")]).2
              "candidates" "*" "id = 1"
            = Except.ok [r]
            ∧ alookup r "id" = some (Value.int 1)
            ∧ (∀ k v, k ≠ "id" →
                alookup [("name", Value.str "Ada"), ("email", Value.str "ada@example.com")] k
                  = some v → alookup r k = some v)
            ∧ (∀ c ∈ candidatesTable.schema, c.name ≠ "id" →
                alookup [("name", Value.str "Ada"), ("email", Value.str "ada@example.com")]
                  c.name = none → alookup r c.name = some Value.null) :=
  ⟨by decide, by decide,
   insert_query_roundtrip_amended seededDB "candidates"
     [("name", Value.str "Ada"), ("email", Value.str "ada@example.com")]
     candidatesTable ⟨"id", "INTEGER", false, false, true⟩
     (Resume.insert_data seededDB "candidates"
       [("name", Value.str "Ada"), ("email", Value.str "ada@example.com")]).1
     (Resume.insert_data seededDB "candidates"
       [("name", Value.str "Ada"), ("email", Value.str "ada@example.com")]).2
     1 "id = 1" (by decide) (by decide) (by decide) rfl rfl (by decide) (by decide) (by decide)⟩

/-- C10: `analyze_jd_industry` on the empty job description returns the
literal "Unknown" for every classifier and API-key state (the result does
not depend on the classifier, so no classifier call is involved), and
"Unknown" is neither one of the seven fixed categories nor an
"Error: ..." string. -/
theorem analyze_jd_empty_returns_unknown (cls : Classifier) (apiKeySet : Bool) :
    JdTest.analyze_jd_industry cls apiKeySet "" = "Unknown"
      ∧ decide ("Unknown" ∈ CATEGORIES) = false
      ∧ pyStarts "Unknown" "Error: " = false :=
  ⟨rfl, by decide, by decide⟩

end JDAgent
